import Mathlib

/-!
# Verification of the trade query service (`API/Scripts/main.py`)

A shallow embedding of the read-only trade query service: an in-memory
store of `Trade` records, a list endpoint `get_trades` (filter → sort →
paginate) and a single-record lookup `get_trade`.

Modelling conventions:
* timestamps (`tradeDateTime`, `start`, `end`) are integers (a point on a
  totally ordered time axis); prices are integers as well — the code only
  ever compares them with `≤` / `≥`;
* optional query parameters are `Option` values; Python truthiness of an
  optional string (`if assetClass:`) is `none`-or-empty falsy, and of an
  optional datetime (`if end:`) is `none` falsy (a datetime object is
  always truthy);
* Python's `str.lower` / `str.strip` are `pyToLower` / `pyStrip`,
  character-list maps that agree with `String.toLower` / `String.trim`
  and reduce well inside `decide`;
* Python's `sorted(xs, key=f)` is the stable ascending sort by key, which
  is extensionally unique, and is modelled by `List.insertionSort` with
  the pulled-back `≤` on keys;
* Python's slice `xs[a:b]` (with `0 ≤ a ≤ b`) is `(xs.take b).drop a`;
* the failure branch of the lookup endpoint literally returns the dict
  `{"error": "Trade not found"}`; it is modelled by the
  `TradeResponse.errorObj` constructor carrying that message.
-/

namespace TradeAPI

/-- `TradeDetails` value object (`main.py` lines 13-16): buy/sell
indicator, price and quantity. -/
structure TradeDetails where
  buySellIndicator : String
  price : Int
  quantity : Int
deriving DecidableEq, Repr

/-- `Trade` entity (`main.py` lines 18-26), with the Python attribute
names (`asset_class`, …); the camelCase names of the spec are their
serialization aliases. -/
structure Trade where
  asset_class : String
  counterparty : String
  instrument_id : String
  instrument_name : String
  trade_date_time : Int
  trade_details : TradeDetails
  trade_id : String
  trader : String
deriving DecidableEq, Repr

/-- The query parameters of `GET /trades` (`main.py` lines 40-48), after
FastAPI validation: every filter is optional, `page` defaults to 1 and
`perPage` to 10. -/
structure QueryParams where
  assetClass : Option String := none
  «end» : Option Int := none
  maxPrice : Option Int := none
  minPrice : Option Int := none
  start : Option Int := none
  tradeType : Option String := none
  page : Nat := 1
  perPage : Nat := 10
  sort : Option String := none
deriving DecidableEq, Repr

/-- Python's `str.lower()` (ASCII case folding, as used by the code to
compare category strings and field names). -/
def pyToLower (s : String) : String :=
  ⟨s.data.map Char.toLower⟩

/-- Python's `str.strip()`: remove leading and trailing whitespace. -/
def pyStrip (s : String) : String :=
  ⟨((s.data.dropWhile Char.isWhitespace).reverse.dropWhile
      Char.isWhitespace).reverse⟩

/-- Python falsiness of a string: `bool(s)` is `False` iff `s` is empty. -/
def pyStrEmpty (s : String) : Bool :=
  s.data.isEmpty

theorem pyStrEmpty_iff (s : String) : pyStrEmpty s = true ↔ s = "" := by
  unfold pyStrEmpty
  rw [List.isEmpty_iff]
  constructor
  · intro h
    exact String.ext h
  · intro h
    rw [h]

/-- Python's `sorted(xs, key=k)`: the stable ascending sort by key.  A
stable sort is extensionally unique, so insertion sort by the pulled-back
`≤` on keys is a faithful model of Timsort's output. -/
def pySorted {α K : Type} [LinearOrder K] (k : α → K) (l : List α) : List α :=
  List.insertionSort (fun a b => k a ≤ k b) l

/-- Python's slice `xs[a:b]` for `0 ≤ a ≤ b` (indices clamped to the
list's length). -/
def pySlice {α : Type} (l : List α) (a b : Nat) : List α :=
  (l.take b).drop a

/-- The filtering stages of `get_trades` (`main.py` lines 50-68), applied
in source order: `assetClass`, `end`, `maxPrice`, `minPrice`, `start`,
`tradeType`.  The string-typed gates (`if assetClass:`, `if tradeType:`)
are Python-truthy, so an empty string skips the stage; the datetime and
float gates fire whenever the parameter is present. -/
def filterStage (store : List Trade) (p : QueryParams) : List Trade :=
  let ft := store
  let ft := match p.assetClass with
    | none => ft
    | some s => if pyStrEmpty s then ft else
        ft.filter (fun t => pyToLower t.asset_class == pyToLower s)
  let ft := match p.«end» with
    | none => ft
    | some e => ft.filter (fun t => decide (t.trade_date_time ≤ e))
  let ft := match p.maxPrice with
    | none => ft
    | some v => ft.filter (fun t => decide (t.trade_details.price ≤ v))
  let ft := match p.minPrice with
    | none => ft
    | some v => ft.filter (fun t => decide (v ≤ t.trade_details.price))
  let ft := match p.start with
    | none => ft
    | some s => ft.filter (fun t => decide (s ≤ t.trade_date_time))
  let ft := match p.tradeType with
    | none => ft
    | some s => if pyStrEmpty s then ft else
        ft.filter (fun t => pyToLower t.trade_details.buySellIndicator == pyToLower s)
  ft

/-- The sorting stage of `get_trades` (`main.py` lines 70-86): gated on
Python truthiness of `sort`, the field name is `sort.strip().lower()` and
is dispatched over the seven recognized field names; an unmatched name
falls through with the list unchanged. -/
def sortStage (sort : Option String) (ft : List Trade) : List Trade :=
  match sort with
  | none => ft
  | some s =>
    if pyStrEmpty s then ft
    else
      let field_name := pyToLower (pyStrip s)
      if field_name = "assetclass" then pySorted (fun t => t.asset_class) ft
      else if field_name = "counterparty" then pySorted (fun t => t.counterparty) ft
      else if field_name = "instrumentid" then pySorted (fun t => t.instrument_id) ft
      else if field_name = "instrumentname" then pySorted (fun t => t.instrument_name) ft
      else if field_name = "tradedatetime" then pySorted (fun t => t.trade_date_time) ft
      else if field_name = "tradeid" then pySorted (fun t => t.trade_id) ft
      else if field_name = "trader" then pySorted (fun t => t.trader) ft
      else ft

/-- `GET /trades` (`main.py` lines 38-94): filter, sort, then paginate
with `start_index = (page - 1) * perPage` and the Python slice
`filtered_trades[start_index:end_index]`. -/
def get_trades (store : List Trade) (p : QueryParams) : List Trade :=
  let filtered_trades := filterStage store p
  let filtered_trades := sortStage p.sort filtered_trades
  let start_index := (p.page - 1) * p.perPage
  let end_index := start_index + p.perPage
  pySlice filtered_trades start_index end_index

/-- The `total_trades` local of `get_trades` (`main.py` line 89): the
length of `filtered_trades` right after the sorting stage.  It is
computed by the handler but does not appear in its return value. -/
def total_trades (store : List Trade) (p : QueryParams) : Nat :=
  (sortStage p.sort (filterStage store p)).length

/-- What `GET /trades/{trade_id}` can evaluate to (`main.py` lines
96-101): a `Trade`, or — on the failure path — the generic dict
`{"error": "Trade not found"}`, modelled by `errorObj` with the dict's
message. -/
inductive TradeResponse where
  | ok (t : Trade)
  | errorObj (msg : String)
deriving DecidableEq, Repr

/-- `GET /trades/{trade_id}` (`main.py` lines 96-101): linear scan for
the first record whose `trade_id` equals the path parameter (exact,
case-sensitive `==`); when the loop falls through it returns the dict
`{"error": "Trade not found"}`. -/
def get_trade (store : List Trade) (trade_id : String) : TradeResponse :=
  match store with
  | [] => .errorObj "Trade not found"
  | t :: ts => if t.trade_id = trade_id then .ok t else get_trade ts trade_id

/-- The server's only mutable-in-principle state: the list `trades`
built once at startup (`main.py` line 36). -/
structure ServerState where
  trades : List Trade
deriving DecidableEq, Repr

/-- A request to one of the two endpoints. -/
inductive Request where
  | listTrades (p : QueryParams)
  | tradeById (id : String)
deriving DecidableEq, Repr

/-- A response from one of the two endpoints. -/
inductive Response where
  | page (l : List Trade)
  | single (r : TradeResponse)
deriving DecidableEq, Repr

/-- One request handled against the server state: both handlers only read
`s.trades` (`main.py` lines 50 and 98) and never reassign or mutate it,
so the state they leave behind is the state they were given. -/
def handle (s : ServerState) : Request → ServerState × Response
  | .listTrades p => (s, .page (get_trades s.trades p))
  | .tradeById id => (s, .single (get_trade s.trades id))

/-- Run a sequence of requests, threading the server state. -/
def runRequests (s : ServerState) : List Request → ServerState
  | [] => s
  | r :: rs => runRequests (handle s r).1 rs

/-! ## Concrete sample data (used by witnesses and counterexamples) -/

/-- A concrete `TradeDetails` value with a given price. -/
def sampleDetails (price : Int) : TradeDetails :=
  { buySellIndicator := "BUY", price := price, quantity := 1 }

/-- A concrete `Trade`; the index `n` becomes the timestamp and the
(unique) `trade_id`. -/
def sampleTrade (n : Nat) : Trade :=
  { asset_class := "Equity", counterparty := "Acme", instrument_id := "TSLA",
    instrument_name := "tesla", trade_date_time := (n : Int),
    trade_details := sampleDetails 10, trade_id := toString n, trader := "T" }

/-- A store of `n` distinct sample trades. -/
def sampleStore (n : Nat) : List Trade := (List.range n).map sampleTrade

/-! ## Stability, order and permutation facts about `pySorted` -/

/-- Being the stable ascending sort of `l` by the key `k`: a permutation
of `l`, sorted by `k`, in which the records sharing any one key value
keep exactly the relative order they had in `l`. -/
def IsStableSortBy {α K : Type} [LinearOrder K] (k : α → K) (l r : List α) : Prop :=
  List.Perm r l ∧ List.Sorted (fun a b => k a ≤ k b) r ∧
    ∀ v : K, r.filter (fun a => decide (k a = v)) = l.filter (fun a => decide (k a = v))

theorem filter_key_orderedInsert {α K : Type} [LinearOrder K] (k : α → K)
    (x : α) (v : K) (l : List α) :
    (List.orderedInsert (fun a b => k a ≤ k b) x l).filter (fun a => decide (k a = v)) =
      if k x = v then x :: l.filter (fun a => decide (k a = v))
      else l.filter (fun a => decide (k a = v)) := by
  induction l with
  | nil => by_cases hxv : k x = v <;> simp [List.orderedInsert, hxv]
  | cons y ys ih =>
    by_cases hxy : k x ≤ k y
    · simp only [List.orderedInsert, if_pos hxy, List.filter_cons]
      by_cases hxv : k x = v <;> by_cases hyv : k y = v <;> simp [hxv, hyv]
    · simp only [List.orderedInsert, if_neg hxy, List.filter_cons]
      by_cases hxv : k x = v
      · have hyv : ¬ (k y = v) := hxv ▸ ne_of_lt (not_le.mp hxy)
        simp [hyv, ih, hxv]
      · by_cases hyv : k y = v <;> simp [hyv, ih, hxv]

theorem filter_key_pySorted {α K : Type} [LinearOrder K] (k : α → K)
    (v : K) (l : List α) :
    (pySorted k l).filter (fun a => decide (k a = v)) =
      l.filter (fun a => decide (k a = v)) := by
  unfold pySorted
  induction l with
  | nil => rfl
  | cons x xs ih =>
    show (List.orderedInsert _ x (List.insertionSort _ xs)).filter _ = _
    rw [filter_key_orderedInsert k x v]
    by_cases hxv : k x = v <;> simp [List.filter_cons, hxv, ih]

theorem isStableSortBy_pySorted {α K : Type} [LinearOrder K] (k : α → K)
    (l : List α) : IsStableSortBy k l (pySorted k l) := by
  refine ⟨List.perm_insertionSort _ l, ?_, fun v => filter_key_pySorted k v l⟩
  haveI : IsTotal α (fun a b => k a ≤ k b) := ⟨fun a b => le_total (k a) (k b)⟩
  haveI : IsTrans α (fun a b => k a ≤ k b) :=
    ⟨fun _ _ _ h1 h2 => le_trans h1 h2⟩
  exact List.sorted_insertionSort _ l

theorem perm_sortStage (sort : Option String) (l : List Trade) :
    List.Perm (sortStage sort l) l := by
  cases sort with
  | none => exact List.Perm.refl l
  | some s =>
    simp only [sortStage]
    split_ifs <;> first
      | exact List.Perm.refl l
      | exact List.perm_insertionSort _ l

theorem length_sortStage (sort : Option String) (l : List Trade) :
    (sortStage sort l).length = l.length :=
  (perm_sortStage sort l).length_eq

theorem mem_sortStage {sort : Option String} {l : List Trade} {t : Trade} :
    t ∈ sortStage sort l ↔ t ∈ l :=
  (perm_sortStage sort l).mem_iff

/-! ## The filter stage as one conjunctive predicate -/

/-- The claim's filter predicate, following the spec's words: a record
passes when it satisfies every supplied filter (logical AND) — case-
insensitive equality for `assetClass` and `tradeType`, inclusive bounds
for the dates and prices — and an absent filter imposes no constraint. -/
def specKeep (p : QueryParams) (t : Trade) : Bool :=
  (match p.assetClass with
    | none => true
    | some s => pyToLower t.asset_class == pyToLower s) &&
  (match p.«end» with
    | none => true
    | some e => decide (t.trade_date_time ≤ e)) &&
  (match p.maxPrice with
    | none => true
    | some v => decide (t.trade_details.price ≤ v)) &&
  (match p.minPrice with
    | none => true
    | some v => decide (v ≤ t.trade_details.price)) &&
  (match p.start with
    | none => true
    | some s => decide (s ≤ t.trade_date_time)) &&
  (match p.tradeType with
    | none => true
    | some s => pyToLower t.trade_details.buySellIndicator == pyToLower s)

theorem filterStage_eq_filter (store : List Trade) (p : QueryParams)
    (hac : p.assetClass ≠ some "") (htt : p.tradeType ≠ some "") :
    filterStage store p = store.filter (specKeep p) := by
  show filterStage store p = store.filter (fun t => specKeep p t)
  obtain ⟨ac, en, mx, mn, st, tt, pg, pp, so⟩ := p
  simp only [QueryParams.assetClass] at hac
  simp only [QueryParams.tradeType] at htt
  have hac2 : ∀ s : String, ac = some s → pyStrEmpty s = false := by
    rintro s rfl
    cases h : pyStrEmpty s
    · rfl
    · exact absurd (congrArg some ((pyStrEmpty_iff s).mp h)) hac
  have htt2 : ∀ s : String, tt = some s → pyStrEmpty s = false := by
    rintro s rfl
    cases h : pyStrEmpty s
    · rfl
    · exact absurd (congrArg some ((pyStrEmpty_iff s).mp h)) htt
  cases ac with
  | none =>
      cases tt with
      | none =>
          cases en <;> cases mx <;> cases mn <;> cases st <;>
            simp [filterStage, specKeep, List.filter_filter, List.filter_true,
              Bool.and_assoc, Bool.and_comm, Bool.and_left_comm]
      | some s2 =>
          have h2 := htt2 s2 rfl
          cases en <;> cases mx <;> cases mn <;> cases st <;>
            simp [filterStage, specKeep, h2, List.filter_filter, List.filter_true,
              Bool.and_assoc, Bool.and_comm, Bool.and_left_comm]
  | some s1 =>
      have h1 := hac2 s1 rfl
      cases tt with
      | none =>
          cases en <;> cases mx <;> cases mn <;> cases st <;>
            simp [filterStage, specKeep, h1, List.filter_filter, List.filter_true,
              Bool.and_assoc, Bool.and_comm, Bool.and_left_comm]
      | some s2 =>
          have h2 := htt2 s2 rfl
          cases en <;> cases mx <;> cases mn <;> cases st <;>
            simp [filterStage, specKeep, h1, h2, List.filter_filter, List.filter_true,
              Bool.and_assoc, Bool.and_comm, Bool.and_left_comm]

/-! ## Pagination facts -/

theorem get_trades_eq_slice (store : List Trade) (p : QueryParams) :
    get_trades store p =
      ((sortStage p.sort (filterStage store p)).drop ((p.page - 1) * p.perPage)).take
        p.perPage := by
  unfold get_trades pySlice
  rw [List.drop_take]
  congr 1
  omega

theorem join_pages {α : Type} (l : List α) (per k : Nat) :
    ((List.range k).map (fun i => (l.drop (i * per)).take per)).flatten =
      l.take (k * per) := by
  induction k with
  | zero => simp
  | succ n ih =>
    rw [List.range_succ, List.map_append, List.flatten_append, ih]
    simp only [List.map_cons, List.map_nil, List.flatten_cons, List.flatten_nil,
      List.append_nil]
    rw [Nat.succ_mul, List.take_add]

/-! ## A three-record demo store (the spec §8 example: prices 10/50/90,
ids A/B/C) -/

/-- Demo record A: Equity, price 10, timestamp 5, bought. -/
def tA : Trade :=
  { asset_class := "Equity", counterparty := "Acme", instrument_id := "TSLA",
    instrument_name := "tesla", trade_date_time := 5,
    trade_details := { buySellIndicator := "BUY", price := 10, quantity := 1 },
    trade_id := "A", trader := "T1" }

/-- Demo record B: Bond, price 50, timestamp 7, sold. -/
def tB : Trade :=
  { asset_class := "Bond", counterparty := "Bell", instrument_id := "AAPL",
    instrument_name := "apple", trade_date_time := 7,
    trade_details := { buySellIndicator := "SELL", price := 50, quantity := 2 },
    trade_id := "B", trader := "T2" }

/-- Demo record C: FX, price 90, timestamp 9, bought. -/
def tC : Trade :=
  { asset_class := "FX", counterparty := "Core", instrument_id := "AMZN",
    instrument_name := "amazon", trade_date_time := 9,
    trade_details := { buySellIndicator := "BUY", price := 90, quantity := 3 },
    trade_id := "C", trader := "T3" }

/-- The demo store with records A, B, C in that order. -/
def demoStore : List Trade := [tA, tB, tC]

/-! ## Sundry small lemmas -/

theorem sortStage_nil (so : Option String) : sortStage so [] = [] := by
  cases so with
  | none => rfl
  | some s =>
    simp only [sortStage]
    split_ifs <;> rfl

/-! ## Claims -/

/-- **C1** (code_bug evidence): the lookup endpoint does scan for the
first record whose `trade_id` equals the path parameter by exact,
case-sensitive comparison — `"A"` finds record A while `"a"` does not —
but on a miss it returns the generic success-shaped dict
`{"error": "Trade not found"}` instead of signalling a distinct
not-found condition, exactly the pitfall the spec calls a bug. -/
theorem get_trade_miss_returns_error_dict :
    get_trade demoStore "missing" = TradeResponse.errorObj "Trade not found" ∧
    get_trade demoStore "A" = TradeResponse.ok tA ∧
    get_trade demoStore "a" = TradeResponse.errorObj "Trade not found" :=
  ⟨rfl, rfl, rfl⟩

/-- **C2** (counterexample): `totalCount` is not exposed to the caller.
Two stores whose filtered sets have different sizes (11 and 12) produce
identical responses under the default query, so no caller can recover
`totalCount` from what the endpoint returns. -/
theorem totalCount_not_recoverable_from_response :
    get_trades (sampleStore 11) {} = get_trades (sampleStore 12) {} ∧
    total_trades (sampleStore 11) {} ≠ total_trades (sampleStore 12) {} :=
  ⟨rfl, by decide⟩

/-- **C2** (amended): the pipeline computes `total_trades` equal to the
size of the filtered, pre-pagination set, and a query on an empty
filtered result returns an empty array with `total_trades = 0`; the
count, however, is only a local of the handler and is not part of the
response. -/
theorem total_trades_counts_filtered_set (store : List Trade) (p : QueryParams) :
    total_trades store p = (filterStage store p).length ∧
    (filterStage store p = [] →
      get_trades store p = [] ∧ total_trades store p = 0) := by
  refine ⟨length_sortStage p.sort (filterStage store p), ?_⟩
  intro hf
  have h0 : sortStage p.sort (filterStage store p) = [] := by
    rw [hf]; exact sortStage_nil p.sort
  constructor
  · rw [get_trades_eq_slice, h0]
    simp
  · unfold total_trades
    rw [h0]
    rfl

/-- Witness for the amended C2: on the empty store the default query
returns the empty page and `total_trades` is 0. -/
theorem total_trades_counts_filtered_set_witness :
    get_trades [] ({} : QueryParams) = [] ∧ total_trades [] ({} : QueryParams) = 0 :=
  (total_trades_counts_filtered_set [] {}).2 rfl

/-- **C3**: for every store and combination of supplied filters (a
supplied string filter being a non-empty one, cf. C10), the filter stage
returns exactly the records satisfying every supplied predicate — the
conjunctive `specKeep`, whose string comparisons are case-insensitive
equalities — in their original store order (it is literally
`List.filter`); consequently every record of every result page satisfies
all supplied filters. -/
theorem filter_stage_conjunctive (store : List Trade) (p : QueryParams)
    (hac : p.assetClass ≠ some "") (htt : p.tradeType ≠ some "") :
    filterStage store p = store.filter (specKeep p) ∧
    ∀ t ∈ get_trades store p, specKeep p t = true := by
  refine ⟨filterStage_eq_filter store p hac htt, ?_⟩
  intro t ht
  rw [get_trades_eq_slice] at ht
  have h1 : t ∈ sortStage p.sort (filterStage store p) :=
    List.Sublist.mem (List.Sublist.mem ht (List.take_sublist _ _))
      (List.drop_sublist _ _)
  rw [mem_sortStage, filterStage_eq_filter store p hac htt] at h1
  exact (List.mem_filter.mp h1).2

/-- Witness for C3: `assetClass=equity` (lower-case) on the demo store. -/
theorem filter_stage_conjunctive_witness :
    ((some "equity" : Option String) ≠ some "" ∧
      (none : Option String) ≠ some "") ∧
    (filterStage demoStore { assetClass := some "equity" } =
        demoStore.filter (specKeep { assetClass := some "equity" }) ∧
      ∀ t ∈ get_trades demoStore { assetClass := some "equity" },
        specKeep { assetClass := some "equity" } t = true) :=
  ⟨⟨by decide, by decide⟩,
    filter_stage_conjunctive demoStore { assetClass := some "equity" }
      (by decide) (by decide)⟩

/-- The two date-filtering predicates of the code (`main.py` lines 56 and
65), conjoined: keep `t` when `tradeDateTime ≤ end` (if `end` is given)
and `start ≤ tradeDateTime` (if `start` is given). -/
def datePass (start «end» : Option Int) (t : Trade) : Bool :=
  (match «end» with
    | none => true
    | some e => decide (t.trade_date_time ≤ e)) &&
  (match start with
    | none => true
    | some s => decide (s ≤ t.trade_date_time))

/-- **C4**: a record passes the date filter iff `start ≤ tradeDateTime`
(when `start` is given) and `tradeDateTime ≤ end` (when `end` is given);
both bounds are inclusive (`≤`), each bound is independently optional,
and a query whose only parameters are `start`/`end` filters the store by
exactly this predicate. -/
theorem date_filter_inclusive_bounds (st en : Option Int) (t : Trade)
    (store : List Trade) :
    (datePass st en t = true ↔
      (∀ s, st = some s → s ≤ t.trade_date_time) ∧
      (∀ e, en = some e → t.trade_date_time ≤ e)) ∧
    filterStage store { start := st, «end» := en } =
      store.filter (datePass st en) := by
  constructor
  · cases st <;> cases en <;> simp [datePass, and_comm]
  · rw [filterStage_eq_filter store _ (by simp) (by simp)]
    apply List.filter_congr
    intro x _
    cases st <;> cases en <;> simp [datePass, specKeep]

/-- Witness for C4: a record whose timestamp equals both bounds is
retained (inclusivity at both ends), on the demo store. -/
theorem date_filter_inclusive_bounds_witness :
    datePass (some 5) (some 5) tA = true ∧
    filterStage demoStore { start := some 5, «end» := some 5 } =
      demoStore.filter (datePass (some 5) (some 5)) :=
  ⟨((date_filter_inclusive_bounds (some 5) (some 5) tA demoStore).1).mpr
      (by decide),
    (date_filter_inclusive_bounds (some 5) (some 5) tA demoStore).2⟩

/-- The recognized sort field names (`main.py` lines 73-86), already
stripped and lower-cased. -/
def recognizedSortFields : List String :=
  ["assetclass", "counterparty", "instrumentid", "instrumentname",
    "tradedatetime", "tradeid", "trader"]

/-- `r` is the stable ascending reordering of `l` by the field that the
(normalized) sort name `fname` selects. -/
def sortedStablyBy (fname : String) (l r : List Trade) : Prop :=
  (fname = "assetclass" → IsStableSortBy (fun t => t.asset_class) l r) ∧
  (fname = "counterparty" → IsStableSortBy (fun t => t.counterparty) l r) ∧
  (fname = "instrumentid" → IsStableSortBy (fun t => t.instrument_id) l r) ∧
  (fname = "instrumentname" → IsStableSortBy (fun t => t.instrument_name) l r) ∧
  (fname = "tradedatetime" → IsStableSortBy (fun t => t.trade_date_time) l r) ∧
  (fname = "tradeid" → IsStableSortBy (fun t => t.trade_id) l r) ∧
  (fname = "trader" → IsStableSortBy (fun t => t.trader) l r)

/-- **C5**: whenever the stripped, lower-cased sort value names one of
the seven recognized fields, the sort stage returns the stable ascending
reordering of its input by that field: a permutation, sorted by the
field, in which records with equal keys keep their pre-sort relative
order. -/
theorem sort_stage_recognized_stable (s : String) (l : List Trade)
    (h : pyToLower (pyStrip s) ∈ recognizedSortFields) :
    sortedStablyBy (pyToLower (pyStrip s)) l (sortStage (some s) l) := by
  have hs : pyStrEmpty s = false := by
    cases he : pyStrEmpty s
    · rfl
    · rw [(pyStrEmpty_iff s).mp he] at h
      exact absurd h (by decide)
  refine ⟨?_, ?_, ?_, ?_, ?_, ?_, ?_⟩ <;> intro hf <;>
    · simp only [sortStage, hs, Bool.false_eq_true, if_false, hf]
      simp only [String.reduceEq, if_true, if_false, reduceIte]
      exact isStableSortBy_pySorted _ l

/-- Witness for C5: sorting the demo store (B before A) by `TradeId `
(mixed case, trailing blank) stably sorts it by `trade_id`. -/
theorem sort_stage_recognized_stable_witness :
    pyToLower (pyStrip "TradeId ") ∈ recognizedSortFields ∧
    sortedStablyBy (pyToLower (pyStrip "TradeId ")) [tB, tA]
      (sortStage (some "TradeId ") [tB, tA]) :=
  ⟨by decide, sort_stage_recognized_stable "TradeId " [tB, tA] (by decide)⟩

/-- An unrecognized (or empty) sort value leaves the list unchanged. -/
theorem sortStage_unrecognized (s : String)
    (h : pyToLower (pyStrip s) ∉ recognizedSortFields) (l : List Trade) :
    sortStage (some s) l = l := by
  cases hs : pyStrEmpty s
  · simp only [recognizedSortFields, List.mem_cons, List.not_mem_nil, or_false,
      not_or] at h
    obtain ⟨h1, h2, h3, h4, h5, h6, h7⟩ := h
    simp only [sortStage, hs, Bool.false_eq_true, if_false, h1, h2, h3, h4, h5,
      h6, h7, reduceIte]
  · simp [sortStage, hs]

/-- **C6**: a sort value that does not normalize to a recognized field is
a no-op — the whole query returns exactly what it returns with no sort
parameter at all, so the filtered order (and hence every page) is that of
the unsorted query. -/
theorem sort_unrecognized_is_noop (store : List Trade) (p : QueryParams)
    (s : String) (h : pyToLower (pyStrip s) ∉ recognizedSortFields) :
    get_trades store { p with sort := some s } =
      get_trades store { p with sort := none } := by
  show pySlice (sortStage (some s) (filterStage store p))
      ((p.page - 1) * p.perPage) ((p.page - 1) * p.perPage + p.perPage) =
    pySlice (sortStage none (filterStage store p))
      ((p.page - 1) * p.perPage) ((p.page - 1) * p.perPage + p.perPage)
  rw [sortStage_unrecognized s h]
  rfl

/-- Witness for C6: `sort=price` (not a recognized field) on the demo
store equals the unsorted query. -/
theorem sort_unrecognized_is_noop_witness :
    pyToLower (pyStrip "price") ∉ recognizedSortFields ∧
    get_trades demoStore { ({} : QueryParams) with sort := some "price" } =
      get_trades demoStore { ({} : QueryParams) with sort := none } :=
  ⟨by decide, sort_unrecognized_is_noop demoStore {} "price" (by decide)⟩

/-- **C7**: for `page ≥ 1` and `perPage ∈ [1, 100]`, the response is
exactly the contiguous slice of the (possibly sorted) filtered set at
offset `(page - 1) * perPage`, it holds at most `perPage` records, and an
offset at or beyond the set's size yields the empty page (no error: the
pipeline is a total function). -/
theorem pagination_slice (store : List Trade) (p : QueryParams)
    (hpage : 1 ≤ p.page) (hper1 : 1 ≤ p.perPage) (hper2 : p.perPage ≤ 100) :
    get_trades store p =
      ((sortStage p.sort (filterStage store p)).drop
        ((p.page - 1) * p.perPage)).take p.perPage ∧
    (get_trades store p).length ≤ p.perPage ∧
    ((sortStage p.sort (filterStage store p)).length ≤
        (p.page - 1) * p.perPage →
      get_trades store p = []) := by
  refine ⟨get_trades_eq_slice store p, ?_, ?_⟩
  · rw [get_trades_eq_slice, List.length_take]
    exact inf_le_left
  · intro hlen
    rw [get_trades_eq_slice, List.drop_eq_nil_of_le hlen, List.take_nil]

/-- Witness for C7: the default query (`page=1`, `perPage=10`) on the
demo store. -/
theorem pagination_slice_witness :
    (1 ≤ (1 : Nat) ∧ 1 ≤ (10 : Nat) ∧ (10 : Nat) ≤ 100) ∧
    (get_trades demoStore {} =
      ((sortStage ({} : QueryParams).sort (filterStage demoStore {})).drop
        ((({} : QueryParams).page - 1) * ({} : QueryParams).perPage)).take
          ({} : QueryParams).perPage ∧
    (get_trades demoStore {}).length ≤ ({} : QueryParams).perPage ∧
    ((sortStage ({} : QueryParams).sort (filterStage demoStore {})).length ≤
        (({} : QueryParams).page - 1) * ({} : QueryParams).perPage →
      get_trades demoStore {} = [])) :=
  ⟨⟨by decide, by decide, by decide⟩,
    pagination_slice demoStore {} (by decide) (by decide) (by decide)⟩

/-- **C8**: pagination round-trip.  With fixed filters, sort and
`perPage`, concatenating pages 1, 2, …, k (for any `k` large enough that
`k * perPage` covers the filtered set) yields the whole filtered-and-
sorted set exactly once, and every page whose offset is at or past the
set's size is empty. -/
theorem pagination_roundtrip (store : List Trade) (p : QueryParams) (k : Nat)
    (hper1 : 1 ≤ p.perPage) (hper2 : p.perPage ≤ 100)
    (hk : (sortStage p.sort (filterStage store p)).length ≤ k * p.perPage) :
    ((List.range k).map
        (fun i => get_trades store { p with page := i + 1 })).flatten =
      sortStage p.sort (filterStage store p) ∧
    ∀ q : Nat,
      (sortStage p.sort (filterStage store p)).length ≤ (q - 1) * p.perPage →
      get_trades store { p with page := q } = [] := by
  have hpg : ∀ i : Nat, get_trades store { p with page := i + 1 } =
      ((sortStage p.sort (filterStage store p)).drop
        (i * p.perPage)).take p.perPage := by
    intro i
    show pySlice (sortStage p.sort (filterStage store p)) (i * p.perPage)
        (i * p.perPage + p.perPage) = _
    unfold pySlice
    rw [List.drop_take]
    congr 1
    omega
  constructor
  · calc ((List.range k).map
          (fun i => get_trades store { p with page := i + 1 })).flatten
        = ((List.range k).map
            (fun i => ((sortStage p.sort (filterStage store p)).drop
              (i * p.perPage)).take p.perPage)).flatten := by
          simp only [hpg]
      _ = (sortStage p.sort (filterStage store p)).take (k * p.perPage) :=
          join_pages _ p.perPage k
      _ = sortStage p.sort (filterStage store p) :=
          List.take_of_length_le hk
  · intro q hq
    show pySlice (sortStage p.sort (filterStage store p))
        ((q - 1) * p.perPage) ((q - 1) * p.perPage + p.perPage) = []
    unfold pySlice
    rw [List.drop_take, List.drop_eq_nil_of_le hq, List.take_nil]

/-- Witness for C8: one page of ten suffices for the three-record demo
store; its concatenation of pages is the whole filtered set and page 2 is
empty. -/
theorem pagination_roundtrip_witness :
    (1 ≤ (10 : Nat) ∧ (10 : Nat) ≤ 100 ∧
      (sortStage ({} : QueryParams).sort (filterStage demoStore {})).length ≤
        1 * ({} : QueryParams).perPage) ∧
    (((List.range 1).map
        (fun i => get_trades demoStore { ({} : QueryParams) with
          page := i + 1 })).flatten =
      sortStage ({} : QueryParams).sort (filterStage demoStore {}) ∧
    ∀ q : Nat,
      (sortStage ({} : QueryParams).sort (filterStage demoStore {})).length ≤
          (q - 1) * ({} : QueryParams).perPage →
      get_trades demoStore { ({} : QueryParams) with page := q } = []) :=
  ⟨⟨by decide, by decide, by decide⟩,
    pagination_roundtrip demoStore {} 1 (by decide) (by decide) (by decide)⟩

/-- **C9**: the store is never mutated and the pipeline is total.  Any
sequence of requests (list queries with arbitrary parameters and lookups
by arbitrary ids) leaves the server state exactly as constructed, and
every single request produces a response while leaving the state
unchanged — both handlers are total functions of the immutable state. -/
theorem store_immutable_pipeline_total (s : ServerState) (reqs : List Request) :
    runRequests s reqs = s ∧
    ∀ r : Request, ∃ resp : Response, handle s r = (s, resp) := by
  constructor
  · induction reqs with
    | nil => rfl
    | cons r rs ih =>
      show runRequests (handle s r).1 rs = s
      have h1 : (handle s r).1 = s := by cases r <;> rfl
      rw [h1]
      exact ih
  · intro r
    cases r with
    | listTrades p => exact ⟨Response.page (get_trades s.trades p), rfl⟩
    | tradeById id => exact ⟨Response.single (get_trade s.trades id), rfl⟩

/-- **C10**: an empty-string `assetClass` or `tradeType` behaves exactly
as an absent parameter (the stage is gated on string truthiness, so every
record passes instead of being compared against `""`), and an
empty-string `sort` applies no sort. -/
theorem empty_string_params_inactive (store : List Trade) (p : QueryParams) :
    get_trades store { p with assetClass := some "" } =
      get_trades store { p with assetClass := none } ∧
    get_trades store { p with tradeType := some "" } =
      get_trades store { p with tradeType := none } ∧
    get_trades store { p with sort := some "" } =
      get_trades store { p with sort := none } ∧
    filterStage store { p with assetClass := some "", tradeType := some "" } =
      filterStage store { p with assetClass := none, tradeType := none } :=
  ⟨rfl, rfl, rfl, rfl⟩

/-! ## Sanity checks: the worked example of spec §8 -/

example :
    get_trades demoStore { minPrice := some 20, maxPrice := some 90 } =
      [tB, tC] := by
  decide

/-- The second query of the spec §8 example: price window 20-90, sorted
by `tradeId`, one record per page, page 2. -/
def specExampleParams : QueryParams :=
  { minPrice := some 20, maxPrice := some 90, sort := some "tradeId",
    perPage := 1, page := 2 }

example : get_trades demoStore specExampleParams = [tC] := by
  have hf : filterStage demoStore specExampleParams = [tB, tC] := by decide
  have hBC : tB.trade_id ≤ tC.trade_id := by
    show ("B" : String) ≤ "C"
    simp
    decide
  have hsort : sortStage specExampleParams.sort [tB, tC] = [tB, tC] := by
    show sortStage (some "tradeId") [tB, tC] = [tB, tC]
    have h1 : pyStrEmpty "tradeId" = false := by decide
    have h2 : pyToLower (pyStrip "tradeId") = "tradeid" := by decide
    simp only [sortStage, h1, Bool.false_eq_true, if_false, h2,
      String.reduceEq, reduceIte]
    show List.insertionSort _ [tB, tC] = [tB, tC]
    simp [List.insertionSort, List.orderedInsert, hBC]
  rw [get_trades_eq_slice, hf, hsort]
  decide

example : get_trades demoStore { assetClass := some "EQUITY" } = [tA] := by
  decide

example : get_trades demoStore { tradeType := some "sell" } = [tB] := by
  decide

example :
    get_trades demoStore { start := some 7, «end» := some 9 } = [tB, tC] := by
  decide

example :
    sortStage (some "tradeDateTime") [tC, tA, tB] = [tA, tB, tC] := by
  decide

end TradeAPI
